import Mathlib

/-!
shell-tunnel: verification of the session, security and output layers

Shallow embedding of the Rust sources of `shell-tunnel` (session state
machine, session id codec, session store, command execution pipeline,
rate limiter, API key store, wire responses, output sanitizer), together
with theorems settling the frozen specification claims.

Machine integers (`u64`, `i32`, `u32`) are modelled as `Nat`/`Int` with
explicit bounds where overflow matters.  `Instant`/`Duration` values are
modelled as `Nat` tick counts.  Fallible Rust code returning
`Result<T, ShellTunnelError>` is modelled with `Except`.
-/

deriving instance DecidableEq for Except

namespace ShellTunnel

/-- From `src/session/state.rs`: the lifecycle state of a shell session. -/
inductive SessionState
  | Created
  | Active
  | Idle
  | Terminated
deriving DecidableEq, Repr, Fintype

/-- From `src/error.rs`: the error enum `ShellTunnelError`.  Payloads that
the claims never inspect (`std::io::Error`, …) are carried as `String`. -/
inductive ShellTunnelError
  | SessionNotFound (id : String)
  | SessionExists (id : String)
  | InvalidStateTransition (src dst : SessionState)
  | Pty (msg : String)
  | Io (msg : String)
  | Timeout
  | SessionTerminated
  | LockPoisoned
  | ChannelSend (msg : String)
  | ChannelClosed
  | ExecutionFailed (msg : String)
  | ParseError (msg : String)
  | NotExecutable (state : SessionState)
  | Update (msg : String)
deriving DecidableEq, Repr

namespace SessionState

/-- From `src/session/state.rs` `SessionState::can_transition_to`. -/
def can_transition_to (s target : SessionState) : Bool :=
  match s, target with
  | Created, Active => true
  | Active, Idle => true
  | Active, Terminated => true
  | Idle, Active => true
  | Idle, Terminated => true
  | _, _ => false

/-- From `src/session/state.rs` `SessionState::transition_to`.  The Rust
method mutates `self` in place; the model returns the method's
`Result<()>` together with the state value after the call. -/
def transition_to (s target : SessionState) :
    Except ShellTunnelError Unit × SessionState :=
  if s.can_transition_to target then
    (Except.ok (), target)
  else
    (Except.error (ShellTunnelError.InvalidStateTransition s target), s)

/-- From `src/session/state.rs` `SessionState::is_terminal`. -/
def is_terminal (s : SessionState) : Bool :=
  match s with
  | Terminated => true
  | _ => false

/-- From `src/session/state.rs` `SessionState::can_execute`. -/
def can_execute (s : SessionState) : Bool :=
  match s with
  | Active => true
  | Idle => true
  | _ => false

end SessionState

/-! ## Session identifiers (`src/session/id.rs`)

`SessionId` wraps a `u64`; ids are modelled as `Nat` together with the
bound `id < 2^64` where it matters.  Strings are modelled as `List Char`
so that the parser and printer can be reasoned about structurally. -/

/-- The `u64` modulus. -/
def u64Size : Nat := 2 ^ 64

/-- `char::to_digit(16)` from Rust core: the value of a hexadecimal digit
character, or `none` for any other character. -/
def hexVal (c : Char) : Option Nat :=
  if 48 ≤ c.toNat ∧ c.toNat ≤ 57 then some (c.toNat - 48)
  else if 97 ≤ c.toNat ∧ c.toNat ≤ 102 then some (c.toNat - 97 + 10)
  else if 65 ≤ c.toNat ∧ c.toNat ≤ 70 then some (c.toNat - 65 + 10)
  else none

/-- The digit loop of Rust core's `u64::from_str_radix(_, 16)`: fold the
digits most-significant first with checked multiplication and addition;
any non-digit character or overflow past `u64::MAX` fails. -/
def foldHexChecked : Nat → List Char → Option Nat
  | acc, [] => some acc
  | acc, c :: cs =>
    match hexVal c with
    | some d => if 16 * acc + d < u64Size then foldHexChecked (16 * acc + d) cs
                else none
    | none => none

/-- The sign handling of Rust core's `from_str_radix` for an unsigned
type: a leading `'+'` is stripped (a `'-'` is not a digit and will fail
in the digit loop, as in Rust, where `-` is rejected for unsigned
types). -/
def stripPlusSign : List Char → List Char
  | c :: rest => if c = '+' then rest else c :: rest
  | [] => []

/-- Rust core's `u64::from_str_radix(s, 16)`: an optional leading `'+'`
sign, then at least one hex digit, with checked accumulation.  An empty
input, an empty digit string after the sign, a non-digit, or overflow all
yield `none`. -/
def fromStrRadix16 (s : List Char) : Option Nat :=
  match stripPlusSign s with
  | [] => none
  | c :: cs => foldHexChecked 0 (c :: cs)

/-- Rust `str::strip_prefix`: `some` of the remainder when `p` is a
prefix of `s`, else `none`. -/
def stripPref : List Char → List Char → Option (List Char)
  | [], s => some s
  | _ :: _, [] => none
  | p :: ps, c :: cs => if c = p then stripPref ps cs else none

/-- From `src/session/id.rs` `impl FromStr for SessionId`:
`s.strip_prefix("sess-").and_then(|hex| u64::from_str_radix(hex, 16).ok())
 .map(SessionId).ok_or_else(|| SessionNotFound(s))`. -/
def sessionIdParse (s : List Char) : Except ShellTunnelError Nat :=
  match (stripPref "sess-".toList s).bind fromStrRadix16 with
  | some n => Except.ok n
  | none => Except.error (ShellTunnelError.SessionNotFound (String.mk s))

/-- Rust core's lowercase hex digit for a value below 16, as used by the
`{:x}` formatter. -/
def hexChar (n : Nat) : Char :=
  if n < 10 then Char.ofNat (48 + n) else Char.ofNat (97 + (n - 10))

/-- Lowercase hex digits of `n`, least significant first, as produced by
Rust's `{:x}` formatter (a single `'0'` for zero). -/
def toHexRev (n : Nat) : List Char :=
  if h : n < 16 then [hexChar n]
  else hexChar (n % 16) :: toHexRev (n / 16)
decreasing_by exact Nat.div_lt_self (by omega) (by omega)

/-- Lowercase hex rendering of `n`, most significant digit first. -/
def hexStr (n : Nat) : List Char := (toHexRev n).reverse

/-- The `{:08x}` zero padding: left-pad with `'0'` to at least width 8. -/
def pad8 (s : List Char) : List Char := List.replicate (8 - s.length) '0' ++ s

/-- From `src/session/id.rs` `impl Display for SessionId`:
`format!("sess-{:08x}", self.0)`. -/
def sessionIdDisplay (id : Nat) : List Char := "sess-".toList ++ pad8 (hexStr id)

/-- The set of inputs the claim C4 says are accepted: `"sess-"` followed
by exactly 8 hexadecimal digits. -/
def exactly8HexForm (s : List Char) : Bool :=
  match stripPref "sess-".toList s with
  | some d => d.length == 8 && d.all (fun c => (hexVal c).isSome)
  | none => false

/-- The plain (unchecked) value of a hex digit string, most significant
digit first. -/
def hexValue (l : List Char) : Nat :=
  l.foldl (fun acc c => 16 * acc + (hexVal c).getD 0) 0

/-- The value of a hex digit string folded most-significant first from a
starting accumulator (no overflow check). -/
def hexValueFrom (acc : Nat) (l : List Char) : Nat :=
  l.foldl (fun a c => 16 * a + (hexVal c).getD 0) acc

/-! ## Session data (`src/session/context.rs`, `src/session/store.rs`) -/

/-- From `src/session/context.rs`: the per-session execution context. -/
structure SessionContext where
  cwd : Option String
  env : List (String × String)
  last_command : Option String
  last_exit_code : Option Int
  execution_count : Nat
deriving DecidableEq, Repr

/-- `SessionContext::default()` / `::new()`. -/
def SessionContext.empty : SessionContext :=
  { cwd := none, env := [], last_command := none, last_exit_code := none,
    execution_count := 0 }

/-- From `src/session/context.rs` `SessionContext::record_execution`. -/
def SessionContext.record_execution (ctx : SessionContext) (command : String)
    (exit_code : Option Int) : SessionContext :=
  { ctx with
    last_command := some command,
    last_exit_code := exit_code,
    execution_count := ctx.execution_count + 1 }

/-- From `src/session/store.rs`: `SessionConfig`. -/
structure SessionConfig where
  shell : Option String
  working_dir : Option String
  env : List (String × String)
deriving DecidableEq, Repr

/-- From `src/session/store.rs`: a `Session`.  `Instant`s are tick counts. -/
structure Session where
  id : Nat
  state : SessionState
  config : SessionConfig
  context : SessionContext
  created_at : Nat
  last_activity : Nat
deriving DecidableEq, Repr

/-- From `src/session/store.rs` `Session::new` (`Instant::now()` is the
`now` argument). -/
def Session.new (id : Nat) (config : SessionConfig) (now : Nat) : Session :=
  { id := id, state := SessionState.Created, config := config,
    context := match config.working_dir with
      | some dir => { SessionContext.empty with cwd := some dir }
      | none => SessionContext.empty,
    created_at := now, last_activity := now }

/-- From `src/session/store.rs` `Session::touch` (`Instant::now()` is the
`now` argument). -/
def Session.touch (s : Session) (now : Nat) : Session :=
  { s with last_activity := now }

/-- From `src/session/store.rs`: the `SessionStore`.  The `RwLock` is
modelled by its observable poisoned bit; the `HashMap` by an association
list keyed by the raw session id. -/
structure Store where
  poisoned : Bool
  sessions : List (Nat × Session)
deriving DecidableEq, Repr

/-- `HashMap::get` on the association list model. -/
def lookupSession : List (Nat × Session) → Nat → Option Session
  | [], _ => none
  | (k, s) :: rest, id => if k = id then some s else lookupSession rest id

/-- `HashMap::get_mut` followed by a mutation: rewrite the value stored at
the key, when present. -/
def mapSession (f : Session → Session) :
    List (Nat × Session) → Nat → List (Nat × Session)
  | [], _ => []
  | (k, s) :: rest, id =>
    if k = id then (k, f s) :: rest else (k, s) :: mapSession f rest id

/-- `HashMap::remove` on the association list model. -/
def removeSession : List (Nat × Session) → Nat → List (Nat × Session)
  | [], _ => []
  | (k, s) :: rest, id =>
    if k = id then rest else (k, s) :: removeSession rest id

/-- From `src/session/store.rs` `SessionStore::create`: insert a fresh
session (the atomically generated id and `Instant::now()` are the `id`
and `now` arguments), or fail with `LockPoisoned`. -/
def Store.create (st : Store) (config : SessionConfig) (id now : Nat) :
    Except ShellTunnelError (Nat × Store) :=
  if st.poisoned then Except.error ShellTunnelError.LockPoisoned
  else Except.ok (id, { st with sessions := (id, Session.new id config now) :: st.sessions })

/-- From `src/session/store.rs` `SessionStore::get`. -/
def Store.get (st : Store) (id : Nat) :
    Except ShellTunnelError (Option Session) :=
  if st.poisoned then Except.error ShellTunnelError.LockPoisoned
  else Except.ok (lookupSession st.sessions id)

/-- From `src/session/store.rs` `SessionStore::contains`. -/
def Store.contains (st : Store) (id : Nat) : Except ShellTunnelError Bool :=
  if st.poisoned then Except.error ShellTunnelError.LockPoisoned
  else Except.ok (lookupSession st.sessions id).isSome

/-- From `src/session/store.rs` `SessionStore::update`: apply `f` to the
session under the id, failing with `LockPoisoned` on a poisoned lock and
with `SessionNotFound` when the id is absent. -/
def Store.update (st : Store) (id : Nat) (f : Session → Session) :
    Except ShellTunnelError Unit × Store :=
  if st.poisoned then (Except.error ShellTunnelError.LockPoisoned, st)
  else
    match lookupSession st.sessions id with
    | none =>
      (Except.error
        (ShellTunnelError.SessionNotFound (String.mk (sessionIdDisplay id))), st)
    | some _ => (Except.ok (), { st with sessions := mapSession f st.sessions id })

/-- From `src/session/store.rs` `SessionStore::remove`. -/
def Store.remove (st : Store) (id : Nat) :
    Except ShellTunnelError (Option Session) × Store :=
  if st.poisoned then (Except.error ShellTunnelError.LockPoisoned, st)
  else (Except.ok (lookupSession st.sessions id),
    { st with sessions := removeSession st.sessions id })

/-- From `src/session/store.rs` `SessionStore::count`:
`self.sessions.read().map(|s| s.len()).unwrap_or(0)` — the return type is
`usize`, and a poisoned lock yields `0`, not an error. -/
def Store.count (st : Store) : Nat :=
  if st.poisoned then 0 else st.sessions.length

/-- From `src/session/store.rs` `SessionStore::list_ids`. -/
def Store.list_ids (st : Store) : Except ShellTunnelError (List Nat) :=
  if st.poisoned then Except.error ShellTunnelError.LockPoisoned
  else Except.ok (st.sessions.map (·.1))

/-- From `src/session/store.rs` `SessionStore::remove_matching`: drop the
sessions satisfying the predicate, returning how many were removed. -/
def Store.remove_matching (st : Store) (p : Session → Bool) :
    Except ShellTunnelError Nat × Store :=
  if st.poisoned then (Except.error ShellTunnelError.LockPoisoned, st)
  else
    let kept := st.sessions.filter (fun e => !p e.2)
    (Except.ok (st.sessions.length - kept.length), { st with sessions := kept })

/-! ## Execution results and wire responses
(`src/execution/result.rs`, `src/api/types.rs`, `src/api/websocket.rs`) -/

/-- From `src/execution/result.rs`: `ExecutionResult`.  Raw bytes are
`Nat`s below 256, the duration a tick count, the exit code an `i32`. -/
structure ExecutionResult where
  raw_output : List Nat
  text_output : String
  exit_code : Option Int
  duration : Nat
  timed_out : Bool
deriving DecidableEq, Repr

/-- From `src/execution/result.rs` `ExecutionResult::new`. -/
def ExecutionResult.mk' (raw : List Nat) (text : String) (duration : Nat) :
    ExecutionResult :=
  { raw_output := raw, text_output := text, exit_code := none,
    duration := duration, timed_out := false }

/-- From `src/execution/result.rs` `ExecutionResult::timeout`. -/
def ExecutionResult.timeout (raw : List Nat) (text : String) (duration : Nat) :
    ExecutionResult :=
  { raw_output := raw, text_output := text, exit_code := none,
    duration := duration, timed_out := true }

/-- From `src/execution/result.rs` `ExecutionResult::with_exit_code`. -/
def ExecutionResult.with_exit_code (r : ExecutionResult) (code : Int) :
    ExecutionResult :=
  { r with exit_code := some code }

/-- From `src/api/types.rs`: `ExecuteCommandResponse` (the HTTP execute
response body; `duration_ms` elided, it is a unit conversion). -/
structure ExecuteCommandResponse where
  success : Bool
  exit_code : Option Int
  output : String
  timed_out : Bool
deriving DecidableEq, Repr

/-- From `src/api/types.rs` `ExecuteCommandResponse::from_result`:
`success: result.exit_code.map(|c| c == 0).unwrap_or(false) && !result.timed_out`. -/
def ExecuteCommandResponse.from_result (r : ExecutionResult) :
    ExecuteCommandResponse :=
  { success := ((r.exit_code.map (fun c => c == 0)).getD false) && !r.timed_out,
    exit_code := r.exit_code,
    output := r.text_output,
    timed_out := r.timed_out }

/-- From `src/api/types.rs`: the `WsMessage::Result` frame payload. -/
structure WsResultFrame where
  success : Bool
  exit_code : Option Int
  timed_out : Bool
deriving DecidableEq, Repr

/-- From `src/api/websocket.rs` `handle_socket`: how the `Result` frame is
built from a finished execution (the same `success` expression as the
HTTP response). -/
def wsResultFrame (r : ExecutionResult) : WsResultFrame :=
  { success := ((r.exit_code.map (fun c => c == 0)).getD false) && !r.timed_out,
    exit_code := r.exit_code,
    timed_out := r.timed_out }

/-! ## Execute-in-session (`src/execution/executor.rs`, `src/api/handlers.rs`)

`execute_sync` drives a PTY — I/O outside the embedding — so its outcome
is an explicit argument `execOutcome`; the two `Instant::now()` calls of
the surrounding bookkeeping are the arguments `now₁` and `now₂`. -/

/-- The closure of the first `store.update` in `execute_in_session`:
`let _ = s.state.transition_to(Active); s.touch()`. -/
def activateTouch (now : Nat) (s : Session) : Session :=
  ({ s with state := (s.state.transition_to SessionState.Active).2 }).touch now

/-- The closure of the second `store.update` in `execute_in_session`:
`let _ = s.state.transition_to(Idle); s.touch()`. -/
def idleTouch (now : Nat) (s : Session) : Session :=
  ({ s with state := (s.state.transition_to SessionState.Idle).2 }).touch now

/-- From `src/execution/executor.rs` `CommandExecutor::execute_in_session`:
look the session up, require `can_execute`, transition to Active and
touch, run the command, transition to Idle and touch regardless of the
outcome, and return the outcome. -/
def executeInSession (st : Store) (sid : Nat)
    (execOutcome : Except ShellTunnelError ExecutionResult) (now₁ now₂ : Nat) :
    Except ShellTunnelError ExecutionResult × Store :=
  match st.get sid with
  | Except.error e => (Except.error e, st)
  | Except.ok none =>
    (Except.error
      (ShellTunnelError.SessionNotFound (String.mk (sessionIdDisplay sid))), st)
  | Except.ok (some session) =>
    if !session.state.can_execute then
      (Except.error (ShellTunnelError.NotExecutable session.state), st)
    else
      match st.update sid (activateTouch now₁) with
      | (Except.error e, st') => (Except.error e, st')
      | (Except.ok _, st₁) =>
        match st₁.update sid (idleTouch now₂) with
        | (Except.error e, st') => (Except.error e, st')
        | (Except.ok _, st₂) => (execOutcome, st₂)

/-- The context-recording closure of `execute_command` in
`src/api/handlers.rs`:
`s.context.record_execution(&req.command, result.exit_code)`. -/
def recordCtx (command : String) (exit_code : Option Int) (s : Session) :
    Session :=
  { s with context := s.context.record_execution command exit_code }

/-- From `src/api/handlers.rs` `execute_command` (after the command has
been built): run `execute_in_session` and, on success, record the command
line and exit code into the session context (errors of that last update
are discarded by `.ok()`). -/
def executeCommandPipeline (st : Store) (sid : Nat) (command : String)
    (execOutcome : Except ShellTunnelError ExecutionResult) (now₁ now₂ : Nat) :
    Except ShellTunnelError ExecutionResult × Store :=
  match executeInSession st sid execOutcome now₁ now₂ with
  | (Except.error e, st') => (Except.error e, st')
  | (Except.ok result, st') =>
    (Except.ok result,
      (st'.update sid (recordCtx command result.exit_code)).2)

/-! ## Rate limiter (`src/security/rate_limit.rs`)

The limiter's per-source record (the claimed behaviour is per source) is
its list of request `Instant`s; `Instant::now()` is the `now` argument.
The `RwLock` around the records map is modelled by its poisoned bit. -/

/-- From `src/security/rate_limit.rs`: `RateLimitConfig` (the memory bound
`max_tracked_ips` only affects the periodic cleanup, not `check`). -/
structure RateLimitConfig where
  max_requests : Nat
  window : Nat
  enabled : Bool
deriving DecidableEq, Repr

/-- From `src/security/rate_limit.rs` `RequestRecord::clean_and_count`:
retain the timestamps `t` with `t > now - window` (`Instant` arithmetic;
`cutoff = now - window`). -/
def cleanTimestamps (window now : Nat) (ts : List Nat) : List Nat :=
  ts.filter (fun t => now - window < t)

/-- The outcome of `RateLimiter::check`: `Ok(remaining)` or
`Err(retry_after)`. -/
inductive CheckOutcome
  | allowed (remaining : Nat)
  | blocked (retry_after : Nat)
deriving DecidableEq, Repr

/-- From `src/security/rate_limit.rs` `RateLimiter::check`, for one
source: pass when disabled; fail open (allow) when the records lock is
poisoned; otherwise clean the record, block when the count has reached
`max_requests` (with `retry_after = window.saturating_sub(oldest.elapsed())`,
or the full window when the record is empty), else append `now` and allow
with `max_requests - n - 1` remaining. -/
def rateLimiterCheck (cfg : RateLimitConfig) (poisoned : Bool)
    (ts : List Nat) (now : Nat) : CheckOutcome × List Nat :=
  if !cfg.enabled then (CheckOutcome.allowed cfg.max_requests, ts)
  else if poisoned then (CheckOutcome.allowed cfg.max_requests, ts)
  else if cfg.max_requests ≤ (cleanTimestamps cfg.window now ts).length then
    (CheckOutcome.blocked
      (match (cleanTimestamps cfg.window now ts).head? with
        | some t => cfg.window - (now - t)
        | none => cfg.window),
     cleanTimestamps cfg.window now ts)
  else
    (CheckOutcome.allowed
      (cfg.max_requests - (cleanTimestamps cfg.window now ts).length - 1),
     cleanTimestamps cfg.window now ts ++ [now])

/-! ## API key store and auth middleware (`src/security/auth.rs`) -/

/-- From `src/security/auth.rs`: `ApiKeyStore` with its `AuthConfig`.  The
`RwLock<HashSet<String>>` is modelled by its poisoned bit and the list of
stored keys. -/
structure ApiKeyStore where
  poisoned : Bool
  keys : List String
  enabled : Bool
  prefixStr : String
deriving DecidableEq, Repr

/-- From `src/security/auth.rs` `ApiKeyStore::add_key`:
`if let Ok(mut keys) = self.keys.write() { keys.insert(key); }` — no
effect under poisoning. -/
def ApiKeyStore.add_key (st : ApiKeyStore) (key : String) : ApiKeyStore :=
  if st.poisoned then st
  else if st.keys.contains key then st
  else { st with keys := key :: st.keys }

/-- From `src/security/auth.rs` `ApiKeyStore::remove_key`:
`self.keys.write().map(|mut keys| keys.remove(key)).unwrap_or(false)`. -/
def ApiKeyStore.remove_key (st : ApiKeyStore) (key : String) :
    Bool × ApiKeyStore :=
  if st.poisoned then (false, st)
  else (st.keys.contains key, { st with keys := st.keys.filter (· ≠ key) })

/-- From `src/security/auth.rs` `ApiKeyStore::is_valid`:
`self.keys.read().map(|keys| keys.contains(key)).unwrap_or(false)`. -/
def ApiKeyStore.is_valid (st : ApiKeyStore) (key : String) : Bool :=
  if st.poisoned then false else st.keys.contains key

/-- From `src/security/auth.rs` `ApiKeyStore::count`:
`self.keys.read().map(|k| k.len()).unwrap_or(0)`. -/
def ApiKeyStore.count (st : ApiKeyStore) : Nat :=
  if st.poisoned then 0 else st.keys.length

/-- From `src/security/auth.rs` `ApiKeyStore::extract_key`: strip the
configured prefix from the header value. -/
def ApiKeyStore.extract_key (st : ApiKeyStore) (header : String) :
    Option String :=
  if st.prefixStr.isPrefixOf header then
    some (header.drop st.prefixStr.length)
  else none

/-- The auth middleware's decision: forward the request or answer 401. -/
inductive AuthDecision
  | pass
  | unauthorized
deriving DecidableEq, Repr

/-- From `src/security/auth.rs` `auth_middleware`: pass when disabled or
on the health path; otherwise require an `Authorization` header whose
extracted key `is_valid`, answering 401 (`unauthorized`) otherwise. -/
def authMiddleware (st : ApiKeyStore) (path : String)
    (authHeader : Option String) : AuthDecision :=
  if !st.enabled then AuthDecision.pass
  else if path = "/health" then AuthDecision.pass
  else
    match authHeader with
    | some h =>
      match st.extract_key h with
      | some key =>
        if st.is_valid key then AuthDecision.pass else AuthDecision.unauthorized
      | none => AuthDecision.unauthorized
    | none => AuthDecision.unauthorized

/-! ## Output sanitizer (`src/output/sanitizer.rs`)

The sanitizer composes the `vte` crate's terminal parser with the
repository's `PlainTextExtractor` (an `impl Perform`).  The extractor is
translated from the source below.  The parser itself is an external crate
and not part of this repository's sources, so it is modelled from the
spec (§4.6): a state-machine parser over the VT escape grammar — CSI,
OSC, DCS, SOS/PM/APC and generic ESC sequences are consumed fully and
dispatched without text, printable input reaches `print`, C0 controls
reach `execute`, and invalid UTF-8 is replaced by U+FFFD.  Characters are
carried as `Nat` codepoints: the source's `print` pushes the UTF-8 bytes
of the char and the final buffer is decoded lossily, which round-trips to
the same character sequence because every pushed fragment is a valid
UTF-8 encoding. -/

/-- The callbacks of the `vte::Perform` trait, with the payloads the
extractor looks at. -/
inductive VteEvent
  | print (codepoint : Nat)
  | execute (byte : Nat)
  | hook
  | put (byte : Nat)
  | unhook
  | oscDispatch
  | csiDispatch
  | escDispatch
deriving DecidableEq, Repr

/-- From `src/output/sanitizer.rs` `impl Perform for PlainTextExtractor`:
`print` keeps the character, `execute` keeps only newline (0x0A),
carriage return (0x0D) and horizontal tab (0x09), and `hook`, `put`,
`unhook`, `osc_dispatch`, `csi_dispatch`, `esc_dispatch` all ignore their
input. -/
def performChars : VteEvent → List Nat
  | VteEvent.print u => [u]
  | VteEvent.execute b =>
    if b = 0x0A ∨ b = 0x0D ∨ b = 0x09 then [b] else []
  | _ => []

/-- Modelled from the spec: the states of the vte parser (the `vte` crate
is a dependency, not part of this repository's sources).  The UTF-8
collector carries the remaining continuation count, the accumulated
codepoint, and the smallest codepoint the sequence length may encode
(shorter values are overlong and invalid). -/
inductive VteState
  | ground
  | escape
  | escapeInt
  | csi
  | osc
  | oscEsc
  | dcsEntry
  | dcsPass
  | dcsEsc
  | strIgnore
  | strEsc
  | utf8 (rem acc lo : Nat)
deriving DecidableEq, Repr

/-- Modelled from the spec: finishing a UTF-8 sequence.  An overlong,
surrogate or out-of-range codepoint becomes U+FFFD; a decoded C1 control
(U+0080–U+009F) is routed to `execute` (the spec drops all C0/C1
controls); anything else is printed. -/
def utf8Complete (cp lo : Nat) : VteEvent :=
  if lo ≤ cp ∧ (cp < 0xD800 ∨ (0xE000 ≤ cp ∧ cp ≤ 0x10FFFF)) then
    if 0x80 ≤ cp ∧ cp ≤ 0x9F then VteEvent.execute cp else VteEvent.print cp
  else VteEvent.print 0xFFFD

/-- Modelled from the spec: the ground-state transition on one byte.
Printables print, C0 controls and DEL go to `execute` (the extractor
keeps only the three whitespace controls), ESC opens an escape sequence,
UTF-8 lead bytes open the collector, and invalid lead bytes become
U+FFFD. -/
def vteGround (b : Nat) : VteState × List VteEvent :=
  if b = 0x1B then (VteState.escape, [])
  else if b < 0x20 then (VteState.ground, [VteEvent.execute b])
  else if b ≤ 0x7E then (VteState.ground, [VteEvent.print b])
  else if b = 0x7F then (VteState.ground, [VteEvent.execute b])
  else if b ≤ 0xC1 then (VteState.ground, [VteEvent.print 0xFFFD])
  else if b ≤ 0xDF then (VteState.utf8 1 (b - 0xC0) 0x80, [])
  else if b ≤ 0xEF then (VteState.utf8 2 (b - 0xE0) 0x800, [])
  else if b ≤ 0xF4 then (VteState.utf8 3 (b - 0xF0) 0x10000, [])
  else (VteState.ground, [VteEvent.print 0xFFFD])

/-- Modelled from the spec: the escape-state transition on one byte:
`[` opens CSI, `]` OSC, `P` DCS, `X`/`^`/`_` a SOS/PM/APC string, an
intermediate byte collects, a final byte dispatches the escape sequence,
and everything else is consumed. -/
def vteEscape (b : Nat) : VteState × List VteEvent :=
  if b = 0x5B then (VteState.csi, [])
  else if b = 0x5D then (VteState.osc, [])
  else if b = 0x50 then (VteState.dcsEntry, [])
  else if b = 0x58 ∨ b = 0x5E ∨ b = 0x5F then (VteState.strIgnore, [])
  else if b = 0x1B then (VteState.escape, [])
  else if 0x20 ≤ b ∧ b ≤ 0x2F then (VteState.escapeInt, [])
  else if 0x30 ≤ b ∧ b ≤ 0x7E then (VteState.ground, [VteEvent.escDispatch])
  else (VteState.ground, [])

/-- Modelled from the spec: one step of the vte parser. -/
def vteStep : VteState → Nat → VteState × List VteEvent
  | VteState.ground, b => vteGround b
  | VteState.escape, b => vteEscape b
  | VteState.escapeInt, b =>
    if 0x20 ≤ b ∧ b ≤ 0x2F then (VteState.escapeInt, [])
    else if b = 0x1B then (VteState.escape, [])
    else if 0x30 ≤ b ∧ b ≤ 0x7E then (VteState.ground, [VteEvent.escDispatch])
    else (VteState.ground, [])
  | VteState.csi, b =>
    if 0x40 ≤ b ∧ b ≤ 0x7E then (VteState.ground, [VteEvent.csiDispatch])
    else if b = 0x1B then (VteState.escape, [])
    else (VteState.csi, [])
  | VteState.osc, b =>
    if b = 0x07 then (VteState.ground, [VteEvent.oscDispatch])
    else if b = 0x1B then (VteState.oscEsc, [])
    else (VteState.osc, [])
  | VteState.oscEsc, b =>
    if b = 0x5C then (VteState.ground, [VteEvent.oscDispatch])
    else
      let (st, evs) := vteEscape b
      (st, VteEvent.oscDispatch :: evs)
  | VteState.dcsEntry, b =>
    if 0x40 ≤ b ∧ b ≤ 0x7E then (VteState.dcsPass, [VteEvent.hook])
    else if b = 0x1B then (VteState.escape, [])
    else (VteState.dcsEntry, [])
  | VteState.dcsPass, b =>
    if b = 0x1B then (VteState.dcsEsc, [])
    else (VteState.dcsPass, [VteEvent.put b])
  | VteState.dcsEsc, b =>
    if b = 0x5C then (VteState.ground, [VteEvent.unhook])
    else
      let (st, evs) := vteEscape b
      (st, VteEvent.unhook :: evs)
  | VteState.strIgnore, b =>
    if b = 0x1B then (VteState.strEsc, []) else (VteState.strIgnore, [])
  | VteState.strEsc, b =>
    if b = 0x5C then (VteState.ground, []) else vteEscape b
  | VteState.utf8 rem acc lo, b =>
    if 0x80 ≤ b ∧ b ≤ 0xBF then
      if rem ≤ 1 then (VteState.ground, [utf8Complete (acc * 64 + (b - 0x80)) lo])
      else (VteState.utf8 (rem - 1) (acc * 64 + (b - 0x80)) lo, [])
    else
      let (st, evs) := vteGround b
      (st, VteEvent.print 0xFFFD :: evs)

/-- Modelled from the spec: `vte::Parser::advance` over a byte buffer,
collecting the dispatched events. -/
def vteRun : VteState → List Nat → List VteEvent
  | _, [] => []
  | st, b :: bs =>
    let (st', evs) := vteStep st b
    evs ++ vteRun st' bs

/-- From `src/output/sanitizer.rs` `OutputSanitizer::strip_ansi`: feed the
buffer through the parser with a fresh `PlainTextExtractor` and collect
its output (as codepoints — see the section comment). -/
def strip_ansi (input : List Nat) : List Nat :=
  (vteRun VteState.ground input).flatMap performChars

/-- The claim's notion of a byte the sanitizer may emit: one of the three
whitespace controls, or a printed (non-C0, non-DEL, non-C1) character. -/
def printableOrWhitespace (u : Nat) : Prop :=
  u = 0x0A ∨ u = 0x0D ∨ u = 0x09 ∨
    (0x20 ≤ u ∧ u ≠ 0x7F ∧ (u < 0x80 ∨ 0xA0 ≤ u))

/-! ## Verification auxiliaries -/

/-- Claim C6's cleaning step taken at its word: drop only the timestamps
*strictly older* than `now - window` (the code also drops a timestamp
exactly at `now - window`). -/
def cleanTimestampsClaim (window now : Nat) (ts : List Nat) : List Nat :=
  ts.filter (fun t => now - window ≤ t)

/-- Reachability invariant of the vte model: a UTF-8 collector state
always carries a minimal codepoint of at least 0x80 (the 2-byte
minimum). -/
def stateOK : VteState → Prop
  | VteState.utf8 _ _ lo => 0x80 ≤ lo
  | _ => True

/-- An event is safe when everything the extractor keeps from it is a
printed character or one of the three whitespace controls. -/
def eventSafe (ev : VteEvent) : Prop :=
  ∀ u ∈ performChars ev, printableOrWhitespace u

/-- A concrete executable (Idle) session used by the witnesses. -/
def exampleSession : Session :=
  { id := 1, state := SessionState.Idle,
    config := { shell := none, working_dir := none, env := [] },
    context := SessionContext.empty, created_at := 0, last_activity := 0 }

/-- A concrete healthy one-session store used by the witnesses. -/
def exampleStore : Store :=
  { poisoned := false, sessions := [(1, exampleSession)] }

/-- A concrete successful execution result used by the witnesses. -/
def exampleResult : ExecutionResult :=
  { raw_output := [], text_output := "ok", exit_code := some 0,
    duration := 3, timed_out := false }

/-- C2: `transition_to` succeeds exactly on the five legal transitions
(Created→Active, Active→Idle, Active→Terminated, Idle→Active,
Idle→Terminated), leaving the new state; in every other case it returns
`InvalidStateTransition {from, to}` and the state value is unchanged (so
Terminated is absorbing), and `can_execute` holds exactly on Active and
Idle. -/
theorem transition_to_characterization :
    ∀ f t : SessionState,
      (((f = .Created ∧ t = .Active) ∨ (f = .Active ∧ t = .Idle) ∨
          (f = .Active ∧ t = .Terminated) ∨ (f = .Idle ∧ t = .Active) ∨
          (f = .Idle ∧ t = .Terminated)) →
        SessionState.transition_to f t = (Except.ok (), t)) ∧
      (¬((f = .Created ∧ t = .Active) ∨ (f = .Active ∧ t = .Idle) ∨
          (f = .Active ∧ t = .Terminated) ∨ (f = .Idle ∧ t = .Active) ∨
          (f = .Idle ∧ t = .Terminated)) →
        SessionState.transition_to f t =
          (Except.error (ShellTunnelError.InvalidStateTransition f t), f)) ∧
      (SessionState.can_execute f = true ↔ (f = .Active ∨ f = .Idle)) := by
  decide

/-- Witness for C2: the legal transition Created→Active succeeds, and the
illegal transition Terminated→Active fails leaving the state Terminated. -/
theorem transition_to_characterization_witness :
    SessionState.transition_to .Created .Active = (Except.ok (), .Active) ∧
    SessionState.transition_to .Terminated .Active =
      (Except.error
        (ShellTunnelError.InvalidStateTransition .Terminated .Active),
       .Terminated) := by
  refine ⟨(transition_to_characterization .Created .Active).1 (by decide),
    (transition_to_characterization .Terminated .Active).2.1 (by decide)⟩

/-! ## Lemmas on the hex digit fold and the id codec -/

theorem hexVal_lt_16 {c : Char} {d : Nat} (h : hexVal c = some d) : d < 16 := by
  unfold hexVal at h
  split at h
  · next hc => simp only [Option.some.injEq] at h; omega
  · split at h
    · next hc => simp only [Option.some.injEq] at h; omega
    · split at h
      · next hc => simp only [Option.some.injEq] at h; omega
      · exact absurd h (by simp)

theorem hexVal_hexChar : ∀ d, d < 16 → hexVal (hexChar d) = some d := by
  decide

theorem hexChar_ne_plus : ∀ d, d < 16 → hexChar d ≠ '+' := by
  decide

theorem hexValueFrom_nil (acc : Nat) : hexValueFrom acc [] = acc := rfl

theorem hexValueFrom_cons (acc : Nat) (c : Char) (cs : List Char) :
    hexValueFrom acc (c :: cs) =
      hexValueFrom (16 * acc + (hexVal c).getD 0) cs := rfl

theorem hexValue_eq_hexValueFrom (l : List Char) :
    hexValue l = hexValueFrom 0 l := rfl

theorem le_hexValueFrom (l : List Char) : ∀ acc, acc ≤ hexValueFrom acc l := by
  induction l with
  | nil => intro acc; exact Nat.le_refl acc
  | cons c cs ih =>
    intro acc
    rw [hexValueFrom_cons]
    exact Nat.le_trans (by omega) (ih (16 * acc + (hexVal c).getD 0))

theorem foldHexChecked_cons_some {c : Char} {d : Nat} (acc : Nat)
    (cs : List Char) (h : hexVal c = some d) :
    foldHexChecked acc (c :: cs) =
      if 16 * acc + d < u64Size then foldHexChecked (16 * acc + d) cs
      else none := by
  rw [show foldHexChecked acc (c :: cs) =
      (match hexVal c with
        | some d => if 16 * acc + d < u64Size then
            foldHexChecked (16 * acc + d) cs else none
        | none => none) from rfl, h]

theorem foldHexChecked_cons_none {c : Char} (acc : Nat) (cs : List Char)
    (h : hexVal c = none) :
    foldHexChecked acc (c :: cs) = none := by
  rw [show foldHexChecked acc (c :: cs) =
      (match hexVal c with
        | some d => if 16 * acc + d < u64Size then
            foldHexChecked (16 * acc + d) cs else none
        | none => none) from rfl, h]

theorem foldHexChecked_append (l₁ l₂ : List Char) :
    ∀ acc, foldHexChecked acc (l₁ ++ l₂) =
      (foldHexChecked acc l₁).bind fun m => foldHexChecked m l₂ := by
  induction l₁ with
  | nil => intro acc; rfl
  | cons c cs ih =>
    intro acc
    rw [List.cons_append]
    cases h : hexVal c with
    | none =>
      rw [foldHexChecked_cons_none acc _ h, foldHexChecked_cons_none acc cs h]
      rfl
    | some d =>
      rw [foldHexChecked_cons_some acc _ h, foldHexChecked_cons_some acc cs h]
      by_cases hlt : 16 * acc + d < u64Size
      · rw [if_pos hlt, if_pos hlt]
        exact ih (16 * acc + d)
      · rw [if_neg hlt, if_neg hlt]
        rfl

theorem foldHexChecked_eq_some_iff (l : List Char) :
    ∀ acc, acc < u64Size → ∀ n,
      (foldHexChecked acc l = some n ↔
        ((∀ c ∈ l, (hexVal c).isSome = true) ∧ n = hexValueFrom acc l ∧
          hexValueFrom acc l < u64Size)) := by
  induction l with
  | nil =>
    intro acc hacc n
    rw [show foldHexChecked acc [] = some acc from rfl, hexValueFrom_nil]
    constructor
    · intro h
      injection h with h
      refine ⟨?_, ?_, hacc⟩
      · intro x hx
        cases hx
      · omega
    · rintro ⟨-, rfl, -⟩
      rfl
  | cons c cs ih =>
    intro acc hacc n
    rw [hexValueFrom_cons]
    cases h : hexVal c with
    | none =>
      rw [foldHexChecked_cons_none acc cs h]
      constructor
      · intro hf
        exact Option.noConfusion hf
      · rintro ⟨hall, -, -⟩
        have hc := hall c (List.mem_cons_self c cs)
        rw [h] at hc
        exact Bool.noConfusion hc
    | some d =>
      rw [foldHexChecked_cons_some acc cs h]
      simp only [Option.getD_some]
      by_cases hlt : 16 * acc + d < u64Size
      · rw [if_pos hlt, ih (16 * acc + d) hlt n]
        constructor
        · rintro ⟨hall, hv, hb⟩
          refine ⟨?_, hv, hb⟩
          intro x hx
          rcases List.mem_cons.mp hx with rfl | hx'
          · rw [h]
            rfl
          · exact hall x hx'
        · rintro ⟨hall, hv, hb⟩
          exact ⟨fun x hx => hall x (List.mem_cons_of_mem c hx), hv, hb⟩
      · rw [if_neg hlt]
        constructor
        · intro hf
          exact Option.noConfusion hf
        · rintro ⟨-, -, hb⟩
          have hle := le_hexValueFrom cs (16 * acc + d)
          omega

theorem stripPref_eq_some_iff (p : List Char) :
    ∀ s r, (stripPref p s = some r ↔ s = p ++ r) := by
  induction p with
  | nil =>
    intro s r
    simp only [stripPref, List.nil_append, Option.some.injEq]
  | cons x xs ih =>
    intro s r
    cases s with
    | nil =>
      simp only [stripPref, List.cons_append]
      constructor
      · intro h; cases h
      · intro h; cases h
    | cons c cs =>
      simp only [stripPref, List.cons_append, List.cons.injEq]
      by_cases hc : c = x
      · rw [if_pos hc, ih cs r]
        exact ⟨fun h => ⟨hc, h⟩, fun h => h.2⟩
      · rw [if_neg hc]
        constructor
        · intro h; cases h
        · rintro ⟨h, -⟩; exact absurd h hc

theorem stripPref_append (p s : List Char) : stripPref p (p ++ s) = some s :=
  (stripPref_eq_some_iff p (p ++ s) s).mpr rfl

theorem toHexRev_eq (n : Nat) :
    toHexRev n =
      if n < 16 then [hexChar n] else hexChar (n % 16) :: toHexRev (n / 16) := by
  rw [toHexRev]
  by_cases h : n < 16
  · rw [dif_pos h, if_pos h]
  · rw [dif_neg h, if_neg h]

theorem toHexRev_ne_nil (n : Nat) : toHexRev n ≠ [] := by
  rw [toHexRev_eq]
  split
  · exact List.cons_ne_nil _ _
  · exact List.cons_ne_nil _ _

theorem toHexRev_mem (n : Nat) :
    ∀ c ∈ toHexRev n, ∃ d, d < 16 ∧ c = hexChar d := by
  induction n using Nat.strong_induction_on with
  | _ n ih =>
    intro c hc
    rw [toHexRev_eq] at hc
    by_cases h : n < 16
    · rw [if_pos h] at hc
      rcases List.mem_singleton.mp hc with rfl
      exact ⟨n, h, rfl⟩
    · rw [if_neg h] at hc
      rcases List.mem_cons.mp hc with rfl | hc
      · exact ⟨n % 16, Nat.mod_lt n (by omega), rfl⟩
      · exact ih (n / 16) (Nat.div_lt_self (by omega) (by omega)) c hc

theorem hexStr_ne_nil (n : Nat) : hexStr n ≠ [] := by
  unfold hexStr
  intro h
  exact toHexRev_ne_nil n (List.reverse_eq_nil_iff.mp h)

theorem hexStr_mem (n : Nat) :
    ∀ c ∈ hexStr n, ∃ d, d < 16 ∧ c = hexChar d := by
  intro c hc
  exact toHexRev_mem n c (List.mem_reverse.mp hc)

theorem hexStr_of_lt (n : Nat) (h : n < 16) : hexStr n = [hexChar n] := by
  unfold hexStr
  rw [toHexRev_eq, if_pos h]
  rfl

theorem hexStr_of_ge (n : Nat) (h : 16 ≤ n) :
    hexStr n = hexStr (n / 16) ++ [hexChar (n % 16)] := by
  unfold hexStr
  rw [toHexRev_eq, if_neg (by omega)]
  exact List.reverse_cons _ _

theorem foldHexChecked_hexStr (n : Nat) :
    ∀ acc, acc * 16 ^ (hexStr n).length + n < u64Size →
      foldHexChecked acc (hexStr n) =
        some (acc * 16 ^ (hexStr n).length + n) := by
  induction n using Nat.strong_induction_on with
  | _ n ih =>
    intro acc hbound
    by_cases h : n < 16
    · rw [hexStr_of_lt n h] at hbound ⊢
      simp only [List.length_singleton, pow_one] at hbound ⊢
      simp only [foldHexChecked, hexVal_hexChar n h]
      rw [if_pos (by omega)]
      congr 1
      omega
    · rw [hexStr_of_ge n (by omega)] at hbound ⊢
      have hlen : (hexStr (n / 16) ++ [hexChar (n % 16)]).length =
          (hexStr (n / 16)).length + 1 := by
        simp
      rw [hlen] at hbound ⊢
      have hpow : acc * 16 ^ ((hexStr (n / 16)).length + 1) =
          16 * (acc * 16 ^ (hexStr (n / 16)).length) := by ring
      rw [hpow] at hbound ⊢
      set B := acc * 16 ^ (hexStr (n / 16)).length with hB
      have hdm : 16 * (n / 16) + n % 16 = n := by omega
      have hsub : B + n / 16 < u64Size := by omega
      rw [foldHexChecked_append]
      rw [ih (n / 16) (Nat.div_lt_self (by omega) (by omega)) acc (by rw [← hB]; omega)]
      simp only [Option.some_bind, foldHexChecked, hexVal_hexChar (n % 16) (by omega)]
      rw [if_pos (by omega)]
      congr 1
      omega

theorem foldHexChecked_replicate_zero (k : Nat) (l : List Char) :
    foldHexChecked 0 (List.replicate k '0' ++ l) = foldHexChecked 0 l := by
  induction k with
  | zero => rfl
  | succ m ih =>
    rw [List.replicate_succ, List.cons_append]
    rw [foldHexChecked_cons_some 0 _ (show hexVal '0' = some 0 from by decide)]
    rw [if_pos (show 16 * 0 + 0 < u64Size by norm_num [u64Size])]
    exact ih

theorem stripPlusSign_cons (c : Char) (cs : List Char) :
    stripPlusSign (c :: cs) = if c = '+' then cs else c :: cs := rfl

theorem stripPlusSign_cons_ne_plus (c : Char) (cs : List Char) (hc : c ≠ '+') :
    stripPlusSign (c :: cs) = c :: cs := by
  rw [stripPlusSign_cons, if_neg hc]

theorem stripPlusSign_plus (cs : List Char) : stripPlusSign ('+' :: cs) = cs := by
  rw [stripPlusSign_cons, if_pos rfl]

theorem fromStrRadix16_cons_ne_plus (c : Char) (cs : List Char)
    (hc : c ≠ '+') :
    fromStrRadix16 (c :: cs) = foldHexChecked 0 (c :: cs) := by
  unfold fromStrRadix16
  rw [stripPlusSign_cons_ne_plus c cs hc]

theorem fromStrRadix16_plus_cons (c : Char) (cs : List Char) :
    fromStrRadix16 ('+' :: (c :: cs)) = foldHexChecked 0 (c :: cs) := by
  unfold fromStrRadix16
  rw [stripPlusSign_plus]

theorem fromStrRadix16_plus_nil : fromStrRadix16 ['+'] = none := by
  unfold fromStrRadix16
  rw [stripPlusSign_plus]

theorem fromStrRadix16_nil : fromStrRadix16 [] = none := rfl

theorem u64Size_pos : 0 < u64Size := by norm_num [u64Size]

theorem foldHexChecked_complete (d : List Char)
    (hall : ∀ c ∈ d, (hexVal c).isSome = true)
    (hbound : hexValue d < u64Size) :
    foldHexChecked 0 d = some (hexValue d) :=
  (foldHexChecked_eq_some_iff d 0 u64Size_pos (hexValue d)).mpr
    ⟨hall, hexValue_eq_hexValueFrom d, by
      rw [← hexValue_eq_hexValueFrom]
      exact hbound⟩

theorem foldHexChecked_inv (d : List Char) (n : Nat)
    (h : foldHexChecked 0 d = some n) :
    (∀ c ∈ d, (hexVal c).isSome = true) ∧ hexValue d = n ∧ n < u64Size := by
  have hiff := (foldHexChecked_eq_some_iff d 0 u64Size_pos n).mp h
  refine ⟨hiff.1, ?_, ?_⟩
  · rw [hexValue_eq_hexValueFrom]
    exact hiff.2.1.symm
  · rw [hiff.2.1]
    exact hiff.2.2

theorem allHex_head_ne_plus {c : Char} {cs : List Char}
    (hall : ∀ x ∈ c :: cs, (hexVal x).isSome = true) : c ≠ '+' := by
  intro hceq
  subst hceq
  have hc := hall '+' (List.mem_cons_self _ _)
  rw [show hexVal '+' = none from by decide] at hc
  exact Bool.noConfusion hc

theorem pad8_hexStr_ne_plus (n : Nat) : ∀ c ∈ pad8 (hexStr n), c ≠ '+' := by
  intro c hc
  unfold pad8 at hc
  rcases List.mem_append.mp hc with hc | hc
  · rw [List.eq_of_mem_replicate hc]
    decide
  · rcases hexStr_mem n c hc with ⟨d, hd, rfl⟩
    exact hexChar_ne_plus d hd

theorem fromStrRadix16_pad8_hexStr (n : Nat) (h : n < u64Size) :
    fromStrRadix16 (pad8 (hexStr n)) = some n := by
  cases hp : pad8 (hexStr n) with
  | nil =>
    exfalso
    unfold pad8 at hp
    exact hexStr_ne_nil n (List.append_eq_nil.mp hp).2
  | cons c cs =>
    have hcne : c ≠ '+' :=
      pad8_hexStr_ne_plus n c (by rw [hp]; exact List.mem_cons_self c cs)
    rw [fromStrRadix16_cons_ne_plus c cs hcne, ← hp]
    unfold pad8
    rw [foldHexChecked_replicate_zero]
    have hfold := foldHexChecked_hexStr n 0 (by simpa using h)
    simpa using hfold

theorem sessionIdParse_eq (s : List Char) :
    sessionIdParse s =
      match (stripPref "sess-".toList s).bind fromStrRadix16 with
      | some n => Except.ok n
      | none =>
        Except.error (ShellTunnelError.SessionNotFound (String.mk s)) := rfl

/-- C8: parsing the displayed canonical text of any `u64` session id
yields the same id: `parse(display(id)) == id`. -/
theorem parse_display_roundtrip (id : Nat) (h : id < u64Size) :
    sessionIdParse (sessionIdDisplay id) = Except.ok id := by
  rw [sessionIdParse_eq]
  unfold sessionIdDisplay
  rw [stripPref_append, Option.some_bind, fromStrRadix16_pad8_hexStr id h]

/-- Witness for C8: the round trip at the fixed id `0x12345678` from the
repository's own test values. -/
theorem parse_display_roundtrip_witness :
    sessionIdParse (sessionIdDisplay 0x12345678) = Except.ok 0x12345678 :=
  parse_display_roundtrip 0x12345678 (by norm_num [u64Size])

/-- Counterexample to C4 as stated: `"sess-ff"` is not `"sess-"` followed
by exactly 8 hexadecimal digits, yet parsing succeeds (Rust's
`u64::from_str_radix` accepts any number of digits that fits a `u64`). -/
theorem sessionIdParse_not_exactly8 :
    sessionIdParse "sess-ff".toList = Except.ok 255 ∧
    exactly8HexForm "sess-ff".toList = false := by
  constructor
  · rfl
  · rfl

/-- C4 (amended): parsing succeeds exactly when the input is `"sess-"`
followed by an optional `'+'` sign and a nonempty run of hexadecimal
digits whose value fits a `u64` (not necessarily 8 digits); every other
input fails with `SessionNotFound` carrying the full input string. -/
theorem sessionIdParse_characterization (s : List Char) :
    (∀ n, sessionIdParse s = Except.ok n ↔
      ∃ d, (s = "sess-".toList ++ d ∨ s = "sess-".toList ++ '+' :: d) ∧
        d ≠ [] ∧ (∀ c ∈ d, (hexVal c).isSome = true) ∧
        hexValue d = n ∧ n < u64Size) ∧
    ((∃ n, sessionIdParse s = Except.ok n) ∨
      sessionIdParse s =
        Except.error (ShellTunnelError.SessionNotFound (String.mk s))) := by
  constructor
  · intro n
    constructor
    · intro hpar
      rw [sessionIdParse_eq] at hpar
      cases hsp : stripPref "sess-".toList s with
      | none =>
        rw [hsp, Option.none_bind] at hpar
        exact Except.noConfusion hpar
      | some r =>
        rw [hsp, Option.some_bind] at hpar
        have hs : s = "sess-".toList ++ r :=
          (stripPref_eq_some_iff _ _ _).mp hsp
        cases hfr : fromStrRadix16 r with
        | none =>
          rw [hfr] at hpar
          exact Except.noConfusion hpar
        | some m =>
          rw [hfr] at hpar
          have hmn : m = n := by
            injection hpar
          subst hmn
          cases r with
          | nil => exact absurd hfr (by rw [fromStrRadix16_nil]; exact fun h => Option.noConfusion h)
          | cons c cs =>
            by_cases hc : c = '+'
            · subst hc
              cases cs with
              | nil =>
                rw [fromStrRadix16_plus_nil] at hfr
                exact Option.noConfusion hfr
              | cons c₂ cs₂ =>
                rw [fromStrRadix16_plus_cons] at hfr
                rcases foldHexChecked_inv _ _ hfr with ⟨hall, hval, hbound⟩
                exact ⟨c₂ :: cs₂, Or.inr hs, List.cons_ne_nil _ _, hall, hval, hbound⟩
            · rw [fromStrRadix16_cons_ne_plus c cs hc] at hfr
              rcases foldHexChecked_inv _ _ hfr with ⟨hall, hval, hbound⟩
              exact ⟨c :: cs, Or.inl hs, List.cons_ne_nil _ _, hall, hval, hbound⟩
    · rintro ⟨d, hshape, hne, hall, hval, hbound⟩
      rcases hshape with hs | hs <;> subst hs
      · rw [sessionIdParse_eq, stripPref_append, Option.some_bind]
        cases d with
        | nil => exact absurd rfl hne
        | cons c cs =>
          rw [fromStrRadix16_cons_ne_plus c cs (allHex_head_ne_plus hall)]
          rw [foldHexChecked_complete (c :: cs) hall (by rw [hval]; exact hbound)]
          rw [hval]
      · rw [sessionIdParse_eq, stripPref_append, Option.some_bind]
        cases d with
        | nil => exact absurd rfl hne
        | cons c cs =>
          rw [fromStrRadix16_plus_cons]
          rw [foldHexChecked_complete (c :: cs) hall (by rw [hval]; exact hbound)]
          rw [hval]
  · rw [sessionIdParse_eq]
    cases hv : (stripPref "sess-".toList s).bind fromStrRadix16 with
    | none => exact Or.inr rfl
    | some n => exact Or.inl ⟨n, rfl⟩

/-- C5: in both wire encodings (HTTP execute response and WebSocket
result frame) the `success` field is true exactly when the exit code is
present, equal to 0, and `timed_out` is false; and a timed-out execution
result is reported with `success = false`, `timed_out = true` and no exit
code. -/
theorem wire_success_characterization (r : ExecutionResult) :
    ((ExecuteCommandResponse.from_result r).success = true ↔
      (r.exit_code = some 0 ∧ r.timed_out = false)) ∧
    ((wsResultFrame r).success = true ↔
      (r.exit_code = some 0 ∧ r.timed_out = false)) ∧
    ((ExecuteCommandResponse.from_result r).exit_code = r.exit_code ∧
      (ExecuteCommandResponse.from_result r).timed_out = r.timed_out ∧
      (wsResultFrame r).exit_code = r.exit_code ∧
      (wsResultFrame r).timed_out = r.timed_out) ∧
    (∀ raw text dur,
      ExecuteCommandResponse.from_result (ExecutionResult.timeout raw text dur) =
        { success := false, exit_code := none, output := text,
          timed_out := true } ∧
      wsResultFrame (ExecutionResult.timeout raw text dur) =
        { success := false, exit_code := none, timed_out := true }) := by
  refine ⟨?_, ?_, ⟨rfl, rfl, rfl, rfl⟩, fun raw text dur => ⟨rfl, rfl⟩⟩
  · rcases r with ⟨raw, text, ec, dur, tout⟩
    cases ec <;> cases tout <;>
      simp [ExecuteCommandResponse.from_result, beq_iff_eq]
  · rcases r with ⟨raw, text, ec, dur, tout⟩
    cases ec <;> cases tout <;>
      simp [wsResultFrame, beq_iff_eq]

/-- Counterexample to C3 as stated: `SessionStore::count` cannot fail
with `LockPoisoned` — its return type is a plain `usize` and under a
poisoned lock it returns `0` (here on a poisoned store actually holding
one session), while e.g. `get` does fail with `LockPoisoned`. -/
theorem store_count_poisoned_counterexample :
    Store.count { poisoned := true, sessions := [(1, exampleSession)] } = 0 ∧
    Store.get { poisoned := true, sessions := [(1, exampleSession)] } 1 =
      Except.error ShellTunnelError.LockPoisoned := by
  constructor
  · rfl
  · rfl

/-- C3 (amended): under a poisoned registry lock, `create`, `get`,
`contains`, `update`, `remove`, `list_ids` and `remove_matching` all fail
with `LockPoisoned` (mutating operations leaving the store unchanged),
while `count` — whose return type carries no error — returns `0`. -/
theorem store_lock_poisoned (st : Store) (hp : st.poisoned = true) :
    (∀ config id now,
      st.create config id now = Except.error ShellTunnelError.LockPoisoned) ∧
    (∀ id, st.get id = Except.error ShellTunnelError.LockPoisoned) ∧
    (∀ id, st.contains id = Except.error ShellTunnelError.LockPoisoned) ∧
    (∀ id f,
      st.update id f = (Except.error ShellTunnelError.LockPoisoned, st)) ∧
    (∀ id, st.remove id = (Except.error ShellTunnelError.LockPoisoned, st)) ∧
    (st.list_ids = Except.error ShellTunnelError.LockPoisoned) ∧
    (∀ p,
      st.remove_matching p = (Except.error ShellTunnelError.LockPoisoned, st)) ∧
    st.count = 0 := by
  refine ⟨?_, ?_, ?_, ?_, ?_, ?_, ?_, ?_⟩ <;>
    simp [Store.create, Store.get, Store.contains, Store.update, Store.remove,
      Store.list_ids, Store.remove_matching, Store.count, hp]

/-- Witness for C3 (amended): on a concrete poisoned store, `get` fails
with `LockPoisoned` and `count` returns 0. -/
theorem store_lock_poisoned_witness :
    Store.get { poisoned := true, sessions := [] } 1 =
      Except.error ShellTunnelError.LockPoisoned ∧
    Store.count { poisoned := true, sessions := [] } = 0 :=
  ⟨(store_lock_poisoned { poisoned := true, sessions := [] } rfl).2.1 1,
   (store_lock_poisoned { poisoned := true, sessions := [] } rfl).2.2.2.2.2.2.2⟩

/-- Counterexample to C9 as stated: the middleware skips authentication
for the health endpoint *before* inspecting any credential, so with
authentication enabled and the key store's lock poisoned, a request to
`/health` presenting a credential is still admitted, not rejected with
401. -/
theorem auth_health_bypass_counterexample :
    authMiddleware
      { poisoned := true, keys := [], enabled := true, prefixStr := "Bearer " }
      "/health" (some "Bearer anything") = AuthDecision.pass := rfl

/-- C9 (amended): the key store fails closed under lock poisoning — in
contrast to the rate limiter's fail-open policy: `is_valid` is false for
every key, `remove_key` returns false and removes nothing, `add_key` has
no effect, `count` returns 0, and with authentication enabled every
request other than one to the health endpoint (which bypasses
authentication entirely) is rejected with 401 whatever credential it
presents; a poisoned but enabled rate limiter instead admits every
request. -/
theorem auth_fail_closed (st : ApiKeyStore) (hp : st.poisoned = true) :
    (∀ key, st.is_valid key = false) ∧
    (∀ key, st.remove_key key = (false, st)) ∧
    (∀ key, st.add_key key = st) ∧
    st.count = 0 ∧
    (∀ path header, st.enabled = true → path ≠ "/health" →
      authMiddleware st path header = AuthDecision.unauthorized) ∧
    (∀ cfg ts now, RateLimitConfig.enabled cfg = true →
      rateLimiterCheck cfg true ts now =
        (CheckOutcome.allowed cfg.max_requests, ts)) := by
  refine ⟨?_, ?_, ?_, ?_, ?_, ?_⟩
  · intro key
    simp [ApiKeyStore.is_valid, hp]
  · intro key
    simp [ApiKeyStore.remove_key, hp]
  · intro key
    simp [ApiKeyStore.add_key, hp]
  · simp [ApiKeyStore.count, hp]
  · intro path header hen hpath
    unfold authMiddleware
    rw [hen]
    simp only [Bool.not_true, Bool.false_eq_true, if_false]
    rw [if_neg hpath]
    cases header with
    | none => rfl
    | some h =>
      cases hek : st.extract_key h with
      | none => simp [hek]
      | some key => simp [hek, ApiKeyStore.is_valid, hp]
  · intro cfg ts now hen
    unfold rateLimiterCheck
    rw [hen]
    simp

/-- Witness for C9 (amended): a poisoned enabled store rejects a request
to a non-health path that presents a stored key, and reports the key as
invalid. -/
theorem auth_fail_closed_witness :
    ApiKeyStore.is_valid
      { poisoned := true, keys := ["k"], enabled := true,
        prefixStr := "Bearer " } "k" = false ∧
    authMiddleware
      { poisoned := true, keys := ["k"], enabled := true,
        prefixStr := "Bearer " }
      "/api/v1/sessions" (some "Bearer k") = AuthDecision.unauthorized :=
  ⟨(auth_fail_closed _ rfl).1 "k",
   (auth_fail_closed _ rfl).2.2.2.2.1 "/api/v1/sessions" (some "Bearer k") rfl
     (by decide)⟩

/-- C10: an enabled rate limiter with `max_requests = 0` blocks every
check — the very first from an unseen source included — and when the
source has no remaining timestamps the reported `retry_after` is the full
window. -/
theorem rate_limiter_zero_max (cfg : RateLimitConfig) (ts : List Nat)
    (now : Nat) (hen : cfg.enabled = true) (hmax : cfg.max_requests = 0) :
    ∃ r, rateLimiterCheck cfg false ts now =
        (CheckOutcome.blocked r, cleanTimestamps cfg.window now ts) ∧
      (cleanTimestamps cfg.window now ts = [] → r = cfg.window) := by
  unfold rateLimiterCheck
  rw [hen]
  simp only [Bool.not_true, Bool.false_eq_true, if_false]
  rw [if_pos (by rw [hmax]; exact Nat.zero_le _)]
  cases hk : (cleanTimestamps cfg.window now ts).head? with
  | none =>
    exact ⟨cfg.window, rfl, fun _ => rfl⟩
  | some t =>
    refine ⟨cfg.window - (now - t), rfl, fun hnil => ?_⟩
    rw [hnil] at hk
    exact Option.noConfusion hk

/-- Witness for C10: with `max_requests = 0`, `window = 10`, the first
check from a fresh source at time 0 is blocked with `retry_after = 10`. -/
theorem rate_limiter_zero_max_witness :
    ∃ r, rateLimiterCheck
        { max_requests := 0, window := 10, enabled := true } false [] 0 =
        (CheckOutcome.blocked r, cleanTimestamps 10 0 []) ∧
      (cleanTimestamps 10 0 [] = [] → r = 10) :=
  rate_limiter_zero_max
    { max_requests := 0, window := 10, enabled := true } [] 0 rfl rfl

/-- Counterexample to C6 as stated: a timestamp exactly at `now − window`
is dropped by the code (`retain t > cutoff`), while the claim drops only
the timestamps *older than* `now − window`.  With `max_requests = 1`,
`window = 10`, one timestamp at 0 and `now = 10`, the claim's cleaning
keeps the timestamp — leaving `n = 1 ≥ max_requests`, hence blocked — but
the code drops it and allows the request. -/
theorem rate_check_boundary_counterexample :
    rateLimiterCheck { max_requests := 1, window := 10, enabled := true }
      false [0] 10 = (CheckOutcome.allowed 0, [10]) ∧
    cleanTimestampsClaim 10 10 [0] = [0] ∧
    cleanTimestamps 10 10 [0] = [] := by
  refine ⟨?_, ?_, ?_⟩
  · rfl
  · rfl
  · rfl

/-- C6 (amended): the enabled limiter first drops the source's timestamps
whose age is at least the window (`now − t ≥ window`, which also drops a
timestamp exactly at `now − window`), leaving `n`; if
`n ≥ max_requests` the check is blocked with
`retry_after = window − (now − oldest remaining timestamp)`; otherwise it
appends the current time and allows with
`remaining = max_requests − n − 1`; a disabled limiter always allows with
`remaining = max_requests`. -/
theorem rate_limiter_check_spec (cfg : RateLimitConfig) (ts : List Nat)
    (now : Nat) (hts : ∀ t ∈ ts, t ≤ now) (hwin : cfg.window ≤ now)
    (hsorted : ts.Sorted (· ≤ ·)) :
    (cfg.enabled = false →
      rateLimiterCheck cfg false ts now =
        (CheckOutcome.allowed cfg.max_requests, ts)) ∧
    cleanTimestamps cfg.window now ts =
      ts.filter (fun t => now - t < cfg.window) ∧
    (cfg.enabled = true →
      (cfg.max_requests ≤ (cleanTimestamps cfg.window now ts).length →
        ∀ t₀ rest, cleanTimestamps cfg.window now ts = t₀ :: rest →
          (∀ t ∈ cleanTimestamps cfg.window now ts, t₀ ≤ t) ∧
          rateLimiterCheck cfg false ts now =
            (CheckOutcome.blocked (cfg.window - (now - t₀)),
             cleanTimestamps cfg.window now ts)) ∧
      ((cleanTimestamps cfg.window now ts).length < cfg.max_requests →
        rateLimiterCheck cfg false ts now =
          (CheckOutcome.allowed
            (cfg.max_requests - (cleanTimestamps cfg.window now ts).length - 1),
           cleanTimestamps cfg.window now ts ++ [now]))) := by
  refine ⟨?_, ?_, ?_⟩
  · intro hdis
    simp [rateLimiterCheck, hdis]
  · unfold cleanTimestamps
    apply List.filter_congr
    intro t ht
    have hle := hts t ht
    simp only [decide_eq_decide]
    omega
  · intro hen
    constructor
    · intro hm t₀ rest hk
      constructor
      · have hks : (cleanTimestamps cfg.window now ts).Sorted (· ≤ ·) :=
          hsorted.filter _
        rw [hk] at hks
        intro t htmem
        rw [hk] at htmem
        rcases List.mem_cons.mp htmem with rfl | htmem
        · exact Nat.le_refl t
        · exact (List.sorted_cons.mp hks).1 t htmem
      · unfold rateLimiterCheck
        rw [hen]
        simp only [Bool.not_true, Bool.false_eq_true, if_false]
        rw [if_pos hm, hk]
        rfl
    · intro hm
      unfold rateLimiterCheck
      rw [hen]
      simp only [Bool.not_true, Bool.false_eq_true, if_false]
      rw [if_neg (by omega)]

/-- Witness for C6 (amended): with `max_requests = 2`, `window = 5` and
one timestamp inside the window, a check at time 10 allows with one slot
used, appending the new timestamp. -/
theorem rate_limiter_check_spec_witness :
    rateLimiterCheck { max_requests := 2, window := 5, enabled := true }
      false [6] 10 =
      (CheckOutcome.allowed (2 - (cleanTimestamps 5 10 [6]).length - 1),
       cleanTimestamps 5 10 [6] ++ [10]) :=
  ((rate_limiter_check_spec
      { max_requests := 2, window := 5, enabled := true } [6] 10
      (by intro t ht; simp at ht; omega) (by decide)
      (List.sorted_singleton 6)).2.2 rfl).2 (by decide)

/-! ## Lemmas for execute-in-session -/

theorem lookupSession_mapSession (f : Session → Session)
    (l : List (Nat × Session)) (id : Nat) :
    lookupSession (mapSession f l id) id = (lookupSession l id).map f := by
  induction l with
  | nil => rfl
  | cons e rest ih =>
    rcases e with ⟨k, s⟩
    by_cases hk : k = id
    · simp [mapSession, lookupSession, hk]
    · simp [mapSession, lookupSession, hk, ih]

theorem can_execute_roundtrip (s : SessionState) (h : s.can_execute = true) :
    ((s.transition_to SessionState.Active).2.transition_to
      SessionState.Idle).2 = SessionState.Idle := by
  revert h
  cases s <;> decide

theorem executeInSession_executable (st : Store) (sid : Nat)
    (execOutcome : Except ShellTunnelError ExecutionResult) (now₁ now₂ : Nat)
    (hp : st.poisoned = false) (session : Session)
    (hlook : lookupSession st.sessions sid = some session)
    (hce : session.state.can_execute = true) :
    executeInSession st sid execOutcome now₁ now₂ =
      (execOutcome,
       { st with
          sessions := mapSession (idleTouch now₂)
            (mapSession (activateTouch now₁) st.sessions sid) sid }) := by
  unfold executeInSession Store.get Store.update
  simp [hp, hlook, hce, lookupSession_mapSession]

/-- C1: executing a command in a session (the handler pipeline over
`execute_in_session`, with the synchronous execute's outcome abstracted
as an input): an absent session fails with `SessionNotFound`; a session
that cannot execute fails with `NotExecutable` leaving the store
unchanged; otherwise the session is transitioned Idle→Active, the
execute runs, the session is transitioned back to Idle and its activity
timestamp touched regardless of the outcome, and on success the command
and its exit code are recorded into the session context before the
result is returned. -/
theorem execute_in_session_characterization (st : Store) (sid : Nat)
    (command : String) (execOutcome : Except ShellTunnelError ExecutionResult)
    (now₁ now₂ : Nat) (hp : st.poisoned = false) :
    (lookupSession st.sessions sid = none →
      executeCommandPipeline st sid command execOutcome now₁ now₂ =
        (Except.error (ShellTunnelError.SessionNotFound
          (String.mk (sessionIdDisplay sid))), st)) ∧
    (∀ session, lookupSession st.sessions sid = some session →
      session.state.can_execute = false →
      executeCommandPipeline st sid command execOutcome now₁ now₂ =
        (Except.error (ShellTunnelError.NotExecutable session.state), st)) ∧
    (∀ session, lookupSession st.sessions sid = some session →
      session.state.can_execute = true →
      (session.state = SessionState.Idle →
        (session.state.transition_to SessionState.Active).2 =
          SessionState.Active) ∧
      ∃ final,
        lookupSession
          (executeCommandPipeline st sid command execOutcome now₁ now₂).2.sessions
          sid = some final ∧
        (executeCommandPipeline st sid command execOutcome now₁ now₂).1 =
          execOutcome ∧
        final.state = SessionState.Idle ∧
        final.last_activity = now₂ ∧
        (∀ r, execOutcome = Except.ok r →
          final.context =
            session.context.record_execution command r.exit_code) ∧
        (∀ e, execOutcome = Except.error e →
          final.context = session.context)) := by
  refine ⟨?_, ?_, ?_⟩
  · intro hnone
    unfold executeCommandPipeline executeInSession Store.get
    simp [hp, hnone]
  · intro session hlook hce
    unfold executeCommandPipeline executeInSession Store.get
    simp [hp, hlook, hce]
  · intro session hlook hce
    have hrun := executeInSession_executable st sid execOutcome now₁ now₂ hp
      session hlook hce
    refine ⟨fun hidle => by rw [hidle]; rfl, ?_⟩
    cases execOutcome with
    | error e =>
      refine ⟨idleTouch now₂ (activateTouch now₁ session),
        ?_, ?_, ?_, ?_, ?_, ?_⟩
      · unfold executeCommandPipeline
        rw [hrun]
        simp [lookupSession_mapSession, hlook]
      · unfold executeCommandPipeline
        rw [hrun]
      · simp [idleTouch, activateTouch, Session.touch,
          can_execute_roundtrip session.state hce]
      · simp [idleTouch, activateTouch, Session.touch]
      · intro r hr
        exact absurd hr (by simp)
      · intro e' _
        simp [idleTouch, activateTouch, Session.touch]
    | ok r =>
      refine ⟨recordCtx command r.exit_code
          (idleTouch now₂ (activateTouch now₁ session)),
        ?_, ?_, ?_, ?_, ?_, ?_⟩
      · unfold executeCommandPipeline
        rw [hrun]
        unfold Store.update
        simp [hp, lookupSession_mapSession, hlook]
      · unfold executeCommandPipeline
        rw [hrun]
      · simp [recordCtx, idleTouch, activateTouch, Session.touch,
          can_execute_roundtrip session.state hce]
      · simp [recordCtx, idleTouch, activateTouch, Session.touch]
      · intro r' hr'
        injection hr' with hr'
        subst hr'
        simp [recordCtx, idleTouch, activateTouch, Session.touch]
      · intro e he
        exact absurd he (by simp)

/-- Witness for C1: on a concrete healthy store holding one Idle session,
a successful execution returns the outcome, leaves the session Idle with
the activity timestamp at the later time, and records the exit code. -/
theorem execute_in_session_characterization_witness :
    (exampleSession.state = SessionState.Idle →
      (exampleSession.state.transition_to SessionState.Active).2 =
        SessionState.Active) ∧
    ∃ final,
      lookupSession
        (executeCommandPipeline exampleStore 1 "echo ok"
          (Except.ok exampleResult) 5 9).2.sessions 1 = some final ∧
      (executeCommandPipeline exampleStore 1 "echo ok"
        (Except.ok exampleResult) 5 9).1 = Except.ok exampleResult ∧
      final.state = SessionState.Idle ∧
      final.last_activity = 9 ∧
      (∀ r, Except.ok exampleResult =
          (Except.ok r : Except ShellTunnelError ExecutionResult) →
        final.context =
          exampleSession.context.record_execution "echo ok" r.exit_code) ∧
      (∀ e, Except.ok exampleResult =
          (Except.error e : Except ShellTunnelError ExecutionResult) →
        final.context = exampleSession.context) :=
  (execute_in_session_characterization exampleStore 1 "echo ok"
    (Except.ok exampleResult) 5 9 rfl).2.2 exampleSession rfl rfl

/-! ## Safety of the output sanitizer -/

theorem performChars_print (u : Nat) :
    performChars (VteEvent.print u) = [u] := rfl

theorem performChars_execute (b : Nat) :
    performChars (VteEvent.execute b) =
      if b = 0x0A ∨ b = 0x0D ∨ b = 0x09 then [b] else [] := rfl

theorem eventSafe_execute (b : Nat) : eventSafe (VteEvent.execute b) := by
  intro u hu
  rw [performChars_execute] at hu
  by_cases hb : b = 0x0A ∨ b = 0x0D ∨ b = 0x09
  · rw [if_pos hb] at hu
    rcases List.mem_singleton.mp hu with rfl
    unfold printableOrWhitespace
    tauto
  · rw [if_neg hb] at hu
    cases hu

theorem eventSafe_print {u : Nat} (h : printableOrWhitespace u) :
    eventSafe (VteEvent.print u) := by
  intro v hv
  rcases List.mem_singleton.mp hv with rfl
  exact h

theorem eventSafe_of_performChars_nil {ev : VteEvent}
    (h : performChars ev = []) : eventSafe ev := by
  intro u hu
  rw [h] at hu
  cases hu

theorem eventSafe_csiDispatch : eventSafe VteEvent.csiDispatch :=
  eventSafe_of_performChars_nil rfl

theorem eventSafe_oscDispatch : eventSafe VteEvent.oscDispatch :=
  eventSafe_of_performChars_nil rfl

theorem eventSafe_escDispatch : eventSafe VteEvent.escDispatch :=
  eventSafe_of_performChars_nil rfl

theorem eventSafe_hook : eventSafe VteEvent.hook :=
  eventSafe_of_performChars_nil rfl

theorem eventSafe_put (b : Nat) : eventSafe (VteEvent.put b) :=
  eventSafe_of_performChars_nil rfl

theorem eventSafe_unhook : eventSafe VteEvent.unhook :=
  eventSafe_of_performChars_nil rfl

theorem eventSafe_replacement : eventSafe (VteEvent.print 0xFFFD) :=
  eventSafe_print (by unfold printableOrWhitespace; omega)

theorem utf8Complete_safe (cp lo : Nat) (hlo : 0x80 ≤ lo) :
    eventSafe (utf8Complete cp lo) := by
  unfold utf8Complete
  by_cases hv : lo ≤ cp ∧ (cp < 0xD800 ∨ (0xE000 ≤ cp ∧ cp ≤ 0x10FFFF))
  · rw [if_pos hv]
    by_cases hc1 : 0x80 ≤ cp ∧ cp ≤ 0x9F
    · rw [if_pos hc1]
      exact eventSafe_execute cp
    · rw [if_neg hc1]
      exact eventSafe_print (by unfold printableOrWhitespace; omega)
  · rw [if_neg hv]
    exact eventSafe_replacement

theorem eventSafe_all_nil : ∀ ev ∈ ([] : List VteEvent), eventSafe ev := by
  intro ev hev
  cases hev

theorem eventSafe_all_singleton {ev : VteEvent} (h : eventSafe ev) :
    ∀ x ∈ [ev], eventSafe x := by
  intro x hx
  rcases List.mem_singleton.mp hx with rfl
  exact h

theorem vteGround_safe (b : Nat) :
    stateOK (vteGround b).1 ∧ ∀ ev ∈ (vteGround b).2, eventSafe ev := by
  unfold vteGround
  split_ifs with h1 h2 h3 h4 h5 h6 h7 h8
  · exact ⟨trivial, eventSafe_all_nil⟩
  · exact ⟨trivial, eventSafe_all_singleton (eventSafe_execute b)⟩
  · refine ⟨trivial, eventSafe_all_singleton (eventSafe_print ?_)⟩
    unfold printableOrWhitespace
    omega
  · exact ⟨trivial, eventSafe_all_singleton (eventSafe_execute b)⟩
  · exact ⟨trivial, eventSafe_all_singleton eventSafe_replacement⟩
  · exact ⟨Nat.le_refl 0x80, eventSafe_all_nil⟩
  · exact ⟨(by norm_num : (0x80 : Nat) ≤ 0x800), eventSafe_all_nil⟩
  · exact ⟨(by norm_num : (0x80 : Nat) ≤ 0x10000), eventSafe_all_nil⟩
  · exact ⟨trivial, eventSafe_all_singleton eventSafe_replacement⟩

theorem vteEscape_safe (b : Nat) :
    stateOK (vteEscape b).1 ∧ ∀ ev ∈ (vteEscape b).2, eventSafe ev := by
  unfold vteEscape
  split_ifs
  · exact ⟨trivial, eventSafe_all_nil⟩
  · exact ⟨trivial, eventSafe_all_nil⟩
  · exact ⟨trivial, eventSafe_all_nil⟩
  · exact ⟨trivial, eventSafe_all_nil⟩
  · exact ⟨trivial, eventSafe_all_nil⟩
  · exact ⟨trivial, eventSafe_all_nil⟩
  · exact ⟨trivial, eventSafe_all_singleton eventSafe_escDispatch⟩
  · exact ⟨trivial, eventSafe_all_nil⟩

theorem vteStep_safe (s : VteState) (b : Nat) (hOK : stateOK s) :
    stateOK (vteStep s b).1 ∧ ∀ ev ∈ (vteStep s b).2, eventSafe ev := by
  cases s with
  | ground => exact vteGround_safe b
  | escape => exact vteEscape_safe b
  | escapeInt =>
    simp only [vteStep]
    split_ifs
    · exact ⟨trivial, eventSafe_all_nil⟩
    · exact ⟨trivial, eventSafe_all_nil⟩
    · exact ⟨trivial, eventSafe_all_singleton eventSafe_escDispatch⟩
    · exact ⟨trivial, eventSafe_all_nil⟩
  | csi =>
    simp only [vteStep]
    split_ifs
    · exact ⟨trivial, eventSafe_all_singleton eventSafe_csiDispatch⟩
    · exact ⟨trivial, eventSafe_all_nil⟩
    · exact ⟨trivial, eventSafe_all_nil⟩
  | osc =>
    simp only [vteStep]
    split_ifs
    · exact ⟨trivial, eventSafe_all_singleton eventSafe_oscDispatch⟩
    · exact ⟨trivial, eventSafe_all_nil⟩
    · exact ⟨trivial, eventSafe_all_nil⟩
  | oscEsc =>
    simp only [vteStep]
    by_cases hb : b = 0x5C
    · rw [if_pos hb]
      exact ⟨trivial, eventSafe_all_singleton eventSafe_oscDispatch⟩
    · rw [if_neg hb]
      obtain ⟨hst, hevs⟩ := vteEscape_safe b
      cases hE : vteEscape b with
      | mk st' evs' =>
        rw [hE] at hst hevs
        refine ⟨hst, ?_⟩
        intro ev hev
        rcases List.mem_cons.mp hev with rfl | hev
        · exact eventSafe_oscDispatch
        · exact hevs ev hev
  | dcsEntry =>
    simp only [vteStep]
    split_ifs
    · exact ⟨trivial, eventSafe_all_singleton eventSafe_hook⟩
    · exact ⟨trivial, eventSafe_all_nil⟩
    · exact ⟨trivial, eventSafe_all_nil⟩
  | dcsPass =>
    simp only [vteStep]
    split_ifs
    · exact ⟨trivial, eventSafe_all_nil⟩
    · exact ⟨trivial, eventSafe_all_singleton (eventSafe_put b)⟩
  | dcsEsc =>
    simp only [vteStep]
    by_cases hb : b = 0x5C
    · rw [if_pos hb]
      exact ⟨trivial, eventSafe_all_singleton eventSafe_unhook⟩
    · rw [if_neg hb]
      obtain ⟨hst, hevs⟩ := vteEscape_safe b
      cases hE : vteEscape b with
      | mk st' evs' =>
        rw [hE] at hst hevs
        refine ⟨hst, ?_⟩
        intro ev hev
        rcases List.mem_cons.mp hev with rfl | hev
        · exact eventSafe_unhook
        · exact hevs ev hev
  | strIgnore =>
    simp only [vteStep]
    split_ifs
    · exact ⟨trivial, eventSafe_all_nil⟩
    · exact ⟨trivial, eventSafe_all_nil⟩
  | strEsc =>
    simp only [vteStep]
    by_cases hb : b = 0x5C
    · rw [if_pos hb]
      exact ⟨trivial, eventSafe_all_nil⟩
    · rw [if_neg hb]
      exact vteEscape_safe b
  | utf8 rem acc lo =>
    have hlo : 0x80 ≤ lo := hOK
    simp only [vteStep]
    by_cases hb : 0x80 ≤ b ∧ b ≤ 0xBF
    · rw [if_pos hb]
      by_cases hr : rem ≤ 1
      · rw [if_pos hr]
        exact ⟨trivial,
          eventSafe_all_singleton (utf8Complete_safe _ lo hlo)⟩
      · rw [if_neg hr]
        exact ⟨hlo, eventSafe_all_nil⟩
    · rw [if_neg hb]
      obtain ⟨hst, hevs⟩ := vteGround_safe b
      cases hE : vteGround b with
      | mk st' evs' =>
        rw [hE] at hst hevs
        refine ⟨hst, ?_⟩
        intro ev hev
        rcases List.mem_cons.mp hev with rfl | hev
        · exact eventSafe_replacement
        · exact hevs ev hev

theorem vteRun_safe (input : List Nat) :
    ∀ s, stateOK s → ∀ ev ∈ vteRun s input, eventSafe ev := by
  induction input with
  | nil =>
    intro s _ ev hev
    cases hev
  | cons b bs ih =>
    intro s hOK ev hev
    obtain ⟨hst, hevs⟩ := vteStep_safe s b hOK
    cases hE : vteStep s b with
    | mk st' evs' =>
      rw [hE] at hst hevs
      simp only [vteRun] at hev
      rw [hE] at hev
      rcases List.mem_append.mp hev with hev | hev
      · exact hevs ev hev
      · exact ih st' hst ev hev

/-- C7: for every input byte sequence, everything the sanitizer emits is
a printed character or one of the three whitespace controls newline
(0x0A), carriage return (0x0D) and horizontal tab (0x09) — no other
C0/C1 control and no DEL ever reaches the output — and the extractor's
callbacks for CSI, OSC, DCS (hook/put/unhook) and generic ESC dispatches
contribute nothing.  (The sanitizer is a total function of the input, and
invalid UTF-8 is replaced by U+FFFD in the parser model.) -/
theorem strip_ansi_charset (input : List Nat) :
    (∀ u ∈ strip_ansi input, printableOrWhitespace u) ∧
    performChars VteEvent.csiDispatch = [] ∧
    performChars VteEvent.oscDispatch = [] ∧
    performChars VteEvent.hook = [] ∧
    (∀ b, performChars (VteEvent.put b) = []) ∧
    performChars VteEvent.unhook = [] ∧
    performChars VteEvent.escDispatch = [] := by
  refine ⟨?_, rfl, rfl, rfl, fun b => rfl, rfl, rfl⟩
  intro u hu
  unfold strip_ansi at hu
  rcases List.mem_flatMap.mp hu with ⟨ev, hev, hu'⟩
  exact vteRun_safe input VteState.ground trivial ev hev u hu'

end ShellTunnel
